import Mathlib

/-!
A verification development for the srsrssrs feed bot's polling and delivery
engine.  The Rust sources (src/feed.rs, src/main.rs, src/db.rs) are embedded
shallowly: time is an `Int` Unix timestamp, the tokio `Instant` arithmetic is
represented by absolute timestamps, HTTP headers are optional strings, and the
external collaborators (the RFC 2822 date reader of chrono and the feed
document reader of feed_rs) are passed in as explicit functions or
pre-computed values, exactly at the boundary where the Rust code calls them.
-/

namespace RssBot

/-! ## Splitting helpers

Rust's `str::split` with a one-character pattern, operating on the character
list of the string.  `"".split(c)` yields one empty piece, and separators at
the edges yield empty pieces, as in Rust. -/

/-- Split a character list on a separator character, Rust `str::split` style:
the result always has one more piece than there are separators. -/
def splitOnChar (sep : Char) : List Char → List (List Char)
  | [] => [[]]
  | c :: rest =>
    let r := splitOnChar sep rest
    if c = sep then
      [] :: r
    else
      match r with
      | [] => [[c]]
      | piece :: pieces => (c :: piece) :: pieces

/-- Rust `str::parse::<i64>`: optional leading sign, then one or more ASCII
digits; anything else, an empty digit string, or a value outside the i64
range is an error (`none`). -/
def parse_i64 (s : List Char) : Option Int :=
  let (sign, digits) :=
    match s with
    | '+' :: rest => ((1 : Int), rest)
    | '-' :: rest => ((-1 : Int), rest)
    | cs => ((1 : Int), cs)
  if digits.isEmpty then
    none
  else if digits.all Char.isDigit then
    let n : Nat := digits.foldl (fun acc c => acc * 10 + (c.toNat - 48)) 0
    let v : Int := sign * (n : Int)
    if -(2 ^ 63) ≤ v ∧ v < 2 ^ 63 then some v else none
  else
    none

/-! ## Expiry calculator (src/feed.rs, `find_expiry`) -/

/-- The error type of src/feed.rs.  Read and parse failures carry opaque
library errors in Rust; here the payload is irrelevant to control flow. -/
inductive FeedError
  | readError
  | parseError
  | malformedHeader (name : String)
deriving DecidableEq, Repr

/-- The two response headers `find_expiry` reads.  A header value is modelled
as the string it holds; `none` means the header is absent. -/
structure Headers where
  cache_control : Option String
  expires : Option String
deriving DecidableEq, Repr

/-- feed.rs line 39: maximum cache delay accepted (24 hours, in seconds). -/
def max_fetch_delay : Int := 24 * 60 * 60

/-- feed.rs line 42: minimum delay used when the server returns a very small
value or one in the past (60 seconds). -/
def min_fetch_delay : Int := 60

/-- feed.rs line 45: default delay when no max age or expiration is given
(10 minutes, in seconds). -/
def default_fetch_delay : Int := 10 * 60

/-- The `find_map` over comma-separated cache-control directives
(feed.rs lines 49-58): split each directive on `=`, require a key and a
value, and return the value of the first directive whose lowercased key is
`max-age`. -/
def findMaxAge (cache_control : List Char) : Option (List Char) :=
  (splitOnChar ',' cache_control).findSome? fun directive =>
    match splitOnChar '=' directive with
    | key :: value :: _ =>
      if key.map Char.toLower = ['m', 'a', 'x', '-', 'a', 'g', 'e'] then
        some value
      else
        none
    | _ => none

/-- src/feed.rs `find_expiry` (lines 32-85).  `parse_rfc2822` stands for
chrono's RFC 2822 date reader (an external collaborator), returning the
parsed timestamp or `none`.  The result is the delay in seconds that the
caller adds to the current instant; the source returns
`Instant::now() + delay.min(max).max(min)`. -/
def find_expiry (parse_rfc2822 : String → Option Int) (now : Int)
    (headers : Headers) : Except FeedError Int :=
  let delay : Except FeedError Int :=
    match headers.cache_control with
    | some cache_control =>
      match findMaxAge cache_control.data with
      | some seconds =>
        match parse_i64 seconds with
        | some n => .ok n
        | none => .error (.malformedHeader "cache-control")
      | none => .ok default_fetch_delay
    | none =>
      match headers.expires with
      | some expiry =>
        match parse_rfc2822 expiry with
        | some expires => .ok (expires - now)
        | none => .error (.malformedHeader "expires")
      | none => .ok default_fetch_delay
  match delay with
  | .ok d => .ok (max (min d max_fetch_delay) min_fetch_delay)
  | .error e => .error e

/-! ## Feed record (src/feed.rs, `struct Feed`) -/

/-- A subscriber handle: the bytes of a packed chat
(`PackedChat::to_bytes`), an opaque identity. -/
abbrev Subscriber := List Nat

/-- A feed document entry as returned by the external feed_rs reader.  Only
the identifier is inspected by the engine; title, links and content only
flow into message formatting. -/
structure Entry where
  id : String
deriving DecidableEq, Repr

/-- src/feed.rs `struct Feed` (lines 8-16).  `last_fetch` and `next_fetch`
are Unix timestamps in seconds (the source keeps `next_fetch` as a tokio
`Instant`; both are converted through `next_fetch_timestamp`). -/
structure Feed where
  url : String
  users : List Subscriber
  seen_entries : List String
  last_fetch : Int
  next_fetch : Int
  etag : Option String
deriving DecidableEq, Repr

/-- src/feed.rs `Feed::reset_entries` (lines 144-153): rewind `last_fetch`
to the Unix epoch, clear the etag, and retain of `seen_entries` only the
identifiers not among the given entries. -/
def Feed.reset_entries (feed : Feed) (entries : List Entry) : Feed :=
  let clear_entries := entries.map Entry.id
  { feed with
    last_fetch := 0
    etag := none
    seen_entries := feed.seen_entries.filter (fun e => ! clear_entries.contains e) }

/-- src/feed.rs `Feed::reset_expiry` (lines 155-157): schedule the next
fetch a default delay from now. -/
def Feed.reset_expiry (feed : Feed) (now : Int) : Feed :=
  { feed with next_fetch := now + default_fetch_delay }

/-- The HTTP response `Feed::check` receives, after `error_for_status` has
not yet run: the status code, the caching headers, and the outcome of
reading and parsing the body through the external feed_rs reader (`none`
when reading the bytes or parsing them fails; the body is only touched on a
modified response). -/
structure Response where
  status : Nat
  headers : Headers
  body : Option (List Entry)
deriving DecidableEq, Repr

/-- src/feed.rs `Feed::check` (lines 112-142).  `error_for_status` turns a
4xx/5xx status into a read error.  On status 304 (not modified) the entry
list is empty and the body is never read; otherwise the parsed entries are
retained only if their identifier is not already in `seen_entries`.  On
success `last_fetch` becomes now and `next_fetch` is taken from the expiry
calculator, or from `reset_expiry` if the calculator failed; a read or
parse failure returns before either field is touched. -/
def Feed.check (parse_rfc2822 : String → Option Int) (now : Int) (feed : Feed)
    (resp : Response) : Except FeedError (Feed × List Entry) :=
  if 400 ≤ resp.status then
    .error .readError
  else
    let expiry := find_expiry parse_rfc2822 now resp.headers
    let entriesResult : Except FeedError (List Entry) :=
      if resp.status = 304 then
        .ok []
      else
        match resp.body with
        | some parsed =>
          .ok (parsed.filter (fun e => ! feed.seen_entries.contains e.id))
        | none => .error .parseError
    match entriesResult with
    | .error e => .error e
    | .ok entries =>
      .ok ({ feed with
              last_fetch := now
              next_fetch :=
                match expiry with
                | .ok d => now + d
                | .error _ => now + default_fetch_delay },
           entries)

/-! ## Delivery fan-out (src/main.rs, `handle_feed` lines 165-201) -/

/-- The messaging collaborator's outcome for one send.  `userIsBlocked` is
the `USER_IS_BLOCKED` RPC error (silently absorbed); the other two error
arms each increment `fail_count`. -/
inductive SendOutcome
  | delivered
  | userIsBlocked
  | rpcError
  | otherError
deriving DecidableEq, Repr

/-- Whether a send outcome increments `fail_count` in the delivery loop. -/
def SendOutcome.isFailure : SendOutcome → Bool
  | .rpcError => true
  | .otherError => true
  | .delivered => false
  | .userIsBlocked => false

/-- The entry loop of `handle_feed` (src/main.rs lines 165-201): for each
entry, count the subscribers whose send failed; if every subscriber failed
(`fail_count == feed.users.len()`), apply `reset_entries` with the cycle's
full entry list and stop (the `break`).  `send` stands for the messaging
collaborator.  The feed is returned as it stands at the end of the loop:
this is the record the batch-persist step stores. -/
def deliver_entries (send : Subscriber → Entry → SendOutcome)
    (allEntries : List Entry) (feed : Feed) : List Entry → Feed
  | [] => feed
  | entry :: rest =>
    let fail_count := (feed.users.filter (fun u => (send u entry).isFailure)).length
    if fail_count = feed.users.length then
      feed.reset_entries allEntries
    else
      deliver_entries send allEntries feed rest

/-! ## Persistence failure policy (src/main.rs, `handle_feed` lines 206-216) -/

/-- One pass of the batch-persist bookkeeping: given the `last_save_failed`
flag and whether `update_feeds_and_entries` succeeded this cycle, return the
new flag, or `none` for the `panic!` on the second consecutive failure. -/
def persist_step (last_save_failed : Bool) (save_ok : Bool) : Option Bool :=
  if save_ok then
    some false
  else if last_save_failed then
    none
  else
    some true

/-- Run the dispatch loop's persistence bookkeeping over a sequence of
batch-persist outcomes (`true` = the save succeeded).  `none` means the loop
panicked; `some flag` means it is still running with that
`last_save_failed` flag. -/
def persist_run (last_save_failed : Bool) : List Bool → Option Bool
  | [] => some last_save_failed
  | ok :: rest =>
    match persist_step last_save_failed ok with
    | none => none
    | some flag => persist_run flag rest

/-- Whether a sequence of batch-persist outcomes contains two consecutive
failures. -/
def has_double_failure : List Bool → Bool
  | false :: false :: _ => true
  | _ :: rest => has_double_failure rest
  | [] => false

/-! ## Persistent store (src/db.rs)

The sqlite tables of `Database::new` (lines 137-156) as lists of rows.  The
`url` column of `feed` is `UNIQUE ON CONFLICT REPLACE`; `entry` and
`subscriber` reference `feed (id)` `ON DELETE CASCADE`, and
`PRAGMA foreign_keys = ON` is set, so deleting a feed row (directly or
through conflict replacement) deletes its entry and subscriber rows. -/

/-- A row of the `feed` table. -/
structure FeedRow where
  id : Int
  url : String
  last_check : Int
  next_check : Int
  etag : Option String
deriving DecidableEq, Repr

/-- A row of the `entry` table. -/
structure EntryRow where
  feed_id : Int
  entry_id : String
deriving DecidableEq, Repr

/-- A row of the `subscriber` table. -/
structure SubRow where
  feed_id : Int
  user : Subscriber
deriving DecidableEq, Repr

/-- The whole store. -/
structure Db where
  feeds : List FeedRow
  entries : List EntryRow
  subs : List SubRow
deriving DecidableEq, Repr

/-- src/db.rs `add_feed` (lines 161-181).  The insert into `feed` resolves a
`url` conflict by REPLACE: every existing row with the same url is deleted
first, and with foreign keys on the delete cascades to that row's entry and
subscriber rows.  The fresh rowid is one more than the largest rowid left in
the table; the new feed's seen entries and subscribers are then inserted
against it (the `ON CONFLICT IGNORE` uniqueness of those tables only
collapses duplicates within the inserted sets). -/
def add_feed (db : Db) (feed : Feed) : Db :=
  let conflicting := db.feeds.filter (fun r => r.url == feed.url)
  let keptFeeds := db.feeds.filter (fun r => ! (r.url == feed.url))
  let keptEntries :=
    db.entries.filter (fun e => ! conflicting.any (fun r => r.id == e.feed_id))
  let keptSubs :=
    db.subs.filter (fun s => ! conflicting.any (fun r => r.id == s.feed_id))
  let newId := (keptFeeds.map FeedRow.id).foldr max 0 + 1
  { feeds := keptFeeds ++
      [⟨newId, feed.url, feed.last_fetch, feed.next_fetch, feed.etag⟩]
    entries := keptEntries ++ feed.seen_entries.map (fun eid => ⟨newId, eid⟩)
    subs := keptSubs ++ feed.users.map (fun u => ⟨newId, u⟩) }

/-- src/db.rs `update_feeds_and_entries` (lines 183-201): for each in-memory
feed, look up its row by url (skipping feeds whose row is gone), update the
row's timestamps and etag, and insert the feed's seen entries (the
`UNIQUE (feed_id, entry_id) ON CONFLICT IGNORE` constraint drops the ones
already stored). -/
def update_feeds_and_entries (db : Db) (feeds : List Feed) : Db :=
  feeds.foldl
    (fun db feed =>
      match db.feeds.find? (fun r => r.url == feed.url) with
      | none => db
      | some row =>
        { db with
          feeds := db.feeds.map (fun r =>
            if r.id == row.id then
              { r with
                last_check := feed.last_fetch
                next_check := feed.next_fetch
                etag := feed.etag }
            else r)
          entries := db.entries ++
            ((feed.seen_entries.filter (fun eid =>
                ! db.entries.any (fun e =>
                  e.feed_id == row.id && e.entry_id == eid))).map
              (fun eid => (⟨row.id, eid⟩ : EntryRow))) })
    db

/-- src/db.rs `cleanup_feeds` (lines 203-208): delete every feed row with no
subscriber row; the delete cascades to the deleted rows' entry and
subscriber rows (the latter are none, by the delete's own condition). -/
def cleanup_feeds (db : Db) : Db :=
  let survives : FeedRow → Bool := fun f => db.subs.any (fun s => s.feed_id == f.id)
  let deleted := db.feeds.filter (fun f => ! survives f)
  { feeds := db.feeds.filter survives
    entries := db.entries.filter (fun e => ! deleted.any (fun f => f.id == e.feed_id))
    subs := db.subs.filter (fun s => ! deleted.any (fun f => f.id == s.feed_id)) }

/-- The `HashMap::entry(id).or_insert_with` of `load_pending_feeds`: rows
are keyed by id, and only the first row of each id is kept. -/
def insert_row (acc : List FeedRow) (r : FeedRow) : List FeedRow :=
  if acc.any (fun x => x.id == r.id) then acc else acc ++ [r]

/-- Deduplicate feed rows by id, keeping the first occurrence (the `feed.id`
column is a primary key, so in a store sqlite built the ids are already
distinct). -/
def dedup_by_id (rows : List FeedRow) : List FeedRow :=
  rows.foldl insert_row []

/-- src/db.rs `load_pending_feeds` (lines 210-251): select every feed row
with `next_check < now`, and give each its subscriber handles and seen entry
identifiers by joining the other two tables on the feed id.  The source
rebuilds `next_fetch` as an `Instant` the same signed distance from now;
here it stays the stored timestamp.  Note the selection filters on
`next_check` alone: there is no condition on the subscriber table. -/
def load_pending_feeds (db : Db) (now : Int) : List Feed :=
  (dedup_by_id (db.feeds.filter (fun r => r.next_check < now))).map fun r =>
    { url := r.url
      users := (db.subs.filter (fun s => s.feed_id == r.id)).map SubRow.user
      seen_entries :=
        (db.entries.filter (fun e => e.feed_id == r.id)).map EntryRow.entry_id
      last_fetch := r.last_check
      next_fetch := r.next_check
      etag := r.etag }

/-- src/db.rs `get_user_feeds` (lines 277-287): the urls of the feeds joined
with a subscriber row for this user, one url per matching pair of rows. -/
def get_user_feeds (db : Db) (user : Subscriber) : List String :=
  db.feeds.flatMap fun f =>
    (db.subs.filter (fun s => s.feed_id == f.id && s.user == user)).map
      (fun _ => f.url)

end RssBot

deriving instance DecidableEq for Except

namespace RssBot

/-! ## Expiry calculator theorems -/

/-- C4: for every response carrying a cache-control header whose max-age
directive parses as the integer N, the computed next-fetch delay is N
clamped to the range 60 to 86400 seconds: N itself when 60 ≤ N ≤ 86400, 60
when N is below 60, and 86400 when N is above 86400. -/
theorem find_expiry_max_age_clamps (parse_rfc2822 : String → Option Int)
    (now : Int) (cc : String) (e : Option String) (s : List Char) (N : Int)
    (hfind : findMaxAge cc.data = some s) (hparse : parse_i64 s = some N) :
    find_expiry parse_rfc2822 now ⟨some cc, e⟩ =
      .ok (if N < 60 then 60 else if 86400 < N then 86400 else N) := by
  simp only [find_expiry, hfind, hparse]
  congr 1
  simp only [max_fetch_delay, min_fetch_delay]
  omega

/-- Witness for C4 at the header value max-age=300. -/
theorem find_expiry_max_age_clamps_witness :
    findMaxAge "max-age=300".data = some ['3', '0', '0'] ∧
    parse_i64 ['3', '0', '0'] = some 300 ∧
    find_expiry (fun _ => none) 0 ⟨some "max-age=300", none⟩ =
      .ok (if (300 : Int) < 60 then 60 else if 86400 < 300 then 86400 else 300) :=
  ⟨by decide, by decide,
    find_expiry_max_age_clamps (fun _ => none) 0 "max-age=300" none
      ['3', '0', '0'] 300 (by decide) (by decide)⟩

/-- A stand-in for the RFC 2822 date reader that reads every string as the
timestamp 10000. -/
def parse_rfc2822_at_10000 : String → Option Int := fun _ => some 10000

/-- C2 counterexample: the cache-control value no-cache holds no max-age
directive and the expiration header is present and reads as the (future)
timestamp 10000, yet the calculator returns the 600 second default delay,
not the 10000 second delay the expiration timestamp would give: the
expiration header is never consulted once a cache-control header exists. -/
theorem find_expiry_expires_ignored_under_cache_control :
    find_expiry parse_rfc2822_at_10000 0
        ⟨some "no-cache", some "Thu, 01 Jan 1970 02:46:40 +0000"⟩ =
      .ok default_fetch_delay ∧
    decide (find_expiry parse_rfc2822_at_10000 0
        ⟨some "no-cache", some "Thu, 01 Jan 1970 02:46:40 +0000"⟩ =
      .ok 10000) = false :=
  ⟨by decide, by decide⟩

/-- C2 amended: for every response whose cache-control header is present but
contains no max-age directive, the calculator returns the default 600
second delay, whatever the expiration header holds; the expiration header
is only consulted when no cache-control header is present at all. -/
theorem find_expiry_default_when_no_max_age (parse_rfc2822 : String → Option Int)
    (now : Int) (cc : String) (e : Option String)
    (hfind : findMaxAge cc.data = none) :
    find_expiry parse_rfc2822 now ⟨some cc, e⟩ = .ok default_fetch_delay := by
  simp only [find_expiry, hfind]
  decide

/-- Witness for the amended C2 at the header value no-cache, with an
expiration header present that reads as timestamp 10000. -/
theorem find_expiry_default_when_no_max_age_witness :
    findMaxAge "no-cache".data = none ∧
    find_expiry parse_rfc2822_at_10000 0
        ⟨some "no-cache", some "Thu, 01 Jan 1970 02:46:40 +0000"⟩ =
      .ok default_fetch_delay :=
  ⟨by decide,
    find_expiry_default_when_no_max_age parse_rfc2822_at_10000 0 "no-cache"
      (some "Thu, 01 Jan 1970 02:46:40 +0000") (by decide)⟩

/-- A stand-in for the RFC 2822 date reader that reads every string as the
timestamp -100, one hundred seconds before the epoch. -/
def parse_rfc2822_in_past : String → Option Int := fun _ => some (-100)

/-- C3 counterexample: with no cache-control header and an expiration header
that reads as a timestamp 100 seconds in the past, the resulting delay is
the 60 second minimum clamp, not the 600 second default delay the claim
states. -/
theorem find_expiry_past_expires_cex :
    find_expiry parse_rfc2822_in_past 0
        ⟨none, some "Wed, 31 Dec 1969 23:58:20 +0000"⟩ = .ok min_fetch_delay ∧
    decide (find_expiry parse_rfc2822_in_past 0
        ⟨none, some "Wed, 31 Dec 1969 23:58:20 +0000"⟩ =
      .ok default_fetch_delay) = false :=
  ⟨by decide, by decide⟩

/-- C3 amended: for every response with no cache-control header whose
expiration header parses to a timestamp at or before now (a computed delay
in the past), the resulting delay is the minimum clamp of 60 seconds — a
positive fixed delay, but the clamp minimum, not the 600 second default. -/
theorem find_expiry_past_expires_clamps_to_minimum
    (parse_rfc2822 : String → Option Int) (now t : Int) (e : String)
    (hp : parse_rfc2822 e = some t) (hpast : t ≤ now) :
    find_expiry parse_rfc2822 now ⟨none, some e⟩ = .ok min_fetch_delay := by
  simp only [find_expiry, hp]
  congr 1
  simp only [max_fetch_delay, min_fetch_delay]
  omega

/-- Witness for the amended C3 at a timestamp 100 seconds before now. -/
theorem find_expiry_past_expires_clamps_to_minimum_witness :
    parse_rfc2822_in_past "Wed, 31 Dec 1969 23:58:20 +0000" = some (-100) ∧
    ((-100 : Int) ≤ 0) ∧
    find_expiry parse_rfc2822_in_past 0
        ⟨none, some "Wed, 31 Dec 1969 23:58:20 +0000"⟩ = .ok min_fetch_delay :=
  ⟨rfl, by decide,
    find_expiry_past_expires_clamps_to_minimum parse_rfc2822_in_past 0 (-100)
      "Wed, 31 Dec 1969 23:58:20 +0000" rfl (by decide)⟩

/-! ## Fetcher theorems -/

/-- C7: a check against a response with status 304 (not modified) whose
headers give the expiry calculator a delay d succeeds (it is not an error),
returns the empty entry list, leaves `seen_entries`, `users`, `url` and
`etag` exactly as they were, and advances `next_fetch` to now plus the
calculator's delay. -/
theorem check_not_modified_empty_and_advances
    (parse_rfc2822 : String → Option Int) (now : Int) (feed : Feed)
    (resp : Response) (d : Int) (h304 : resp.status = 304)
    (hexpiry : find_expiry parse_rfc2822 now resp.headers = .ok d) :
    Feed.check parse_rfc2822 now feed resp =
      .ok ({ feed with last_fetch := now, next_fetch := now + d }, []) := by
  simp only [Feed.check, h304, hexpiry]
  norm_num

/-- Witness for C7: a 304 response with no caching headers, giving the
default 600 second delay. -/
theorem check_not_modified_empty_and_advances_witness :
    ((304 : Nat) = 304) ∧
    find_expiry (fun _ => none) 50 ⟨none, none⟩ = .ok 600 ∧
    Feed.check (fun _ => none) 50
        { url := "http://w", users := [[3]], seen_entries := ["a"],
          last_fetch := 20, next_fetch := 40, etag := some "v" }
        { status := 304, headers := ⟨none, none⟩, body := none } =
      .ok ({ url := "http://w", users := [[3]], seen_entries := ["a"],
             last_fetch := 50, next_fetch := 650, etag := some "v" }, []) :=
  ⟨rfl, by decide,
    check_not_modified_empty_and_advances (fun _ => none) 50
      { url := "http://w", users := [[3]], seen_entries := ["a"],
        last_fetch := 20, next_fetch := 40, etag := some "v" }
      { status := 304, headers := ⟨none, none⟩, body := none } 600 rfl
      (by decide)⟩

/-! ## Delivery fan-out theorems -/

/-- C5: whenever some entry of the cycle fails delivery for every one of the
feed's subscribers, the delivery loop ends in `reset_entries` applied to the
cycle's full entry list: `last_fetch` becomes the epoch, the etag is
cleared, and the final `seen_entries` are exactly the previous ones without
the identifiers of the entries prepared for delivery this cycle — every
other member remains. -/
theorem full_failure_applies_reset (send : Subscriber → Entry → SendOutcome)
    (feed : Feed) (entries : List Entry)
    (h : ∃ e ∈ entries,
      (feed.users.filter (fun u => (send u e).isFailure)).length =
        feed.users.length) :
    deliver_entries send entries feed entries = feed.reset_entries entries ∧
    (feed.reset_entries entries).last_fetch = 0 ∧
    (feed.reset_entries entries).etag = none ∧
    (feed.reset_entries entries).seen_entries =
      feed.seen_entries.filter (fun x => ! (entries.map Entry.id).contains x) := by
  refine ⟨?_, rfl, rfl, rfl⟩
  have key : ∀ l : List Entry,
      (∃ e ∈ l, (feed.users.filter (fun u => (send u e).isFailure)).length =
        feed.users.length) →
      deliver_entries send entries feed l = feed.reset_entries entries := by
    intro l
    induction l with
    | nil => rintro ⟨e, he, -⟩; cases he
    | cons a t ih =>
      rintro ⟨e, he, hfail⟩
      by_cases ha : (feed.users.filter (fun u => (send u a).isFailure)).length =
          feed.users.length
      · simp only [deliver_entries, if_pos ha]
      · simp only [deliver_entries, if_neg ha]
        apply ih
        rcases List.mem_cons.mp he with rfl | he'
        · exact absurd hfail ha
        · exact ⟨e, he', hfail⟩
  exact key entries h

/-- The messaging stand-in where every send hits a transient RPC error. -/
def send_all_fail : Subscriber → Entry → SendOutcome := fun _ _ => .rpcError

/-- The feed of the C5 witness: two subscribers, seen entries 1 and 4. -/
def feed_c5 : Feed :=
  { url := "http://f", users := [[1], [2]], seen_entries := ["1", "4"],
    last_fetch := 50, next_fetch := 100, etag := some "t" }

/-- The cycle entries of the C5 witness. -/
def entries_c5 : List Entry := [⟨"4"⟩, ⟨"5"⟩]

/-- Witness for C5: both subscribers fail for entry 4, so the loop resets and
the stored seen set keeps 1 but drops 4. -/
theorem full_failure_applies_reset_witness :
    (∃ e ∈ entries_c5,
      (feed_c5.users.filter (fun u => (send_all_fail u e).isFailure)).length =
        feed_c5.users.length) ∧
    (deliver_entries send_all_fail entries_c5 feed_c5 entries_c5 =
        feed_c5.reset_entries entries_c5 ∧
      (feed_c5.reset_entries entries_c5).last_fetch = 0 ∧
      (feed_c5.reset_entries entries_c5).etag = none ∧
      (feed_c5.reset_entries entries_c5).seen_entries =
        feed_c5.seen_entries.filter
          (fun x => ! (entries_c5.map Entry.id).contains x)) :=
  ⟨by decide, full_failure_applies_reset send_all_fail feed_c5 entries_c5 (by decide)⟩

/-- C9: a feed whose subscriber list is empty resets on the very first entry
of the cycle, because its failure count of zero equals its subscriber count
of zero: the delivery loop returns `reset_entries` on the whole cycle, with
the epoch `last_fetch`, cleared etag and the cycle's identifiers struck from
`seen_entries`. -/
theorem zero_subscribers_trigger_reset (send : Subscriber → Entry → SendOutcome)
    (feed : Feed) (allEntries : List Entry) (e : Entry) (rest : List Entry)
    (husers : feed.users = []) :
    deliver_entries send allEntries feed (e :: rest) =
      feed.reset_entries allEntries ∧
    (feed.reset_entries allEntries).last_fetch = 0 ∧
    (feed.reset_entries allEntries).etag = none ∧
    (feed.reset_entries allEntries).seen_entries =
      feed.seen_entries.filter
        (fun x => ! (allEntries.map Entry.id).contains x) := by
  refine ⟨?_, rfl, rfl, rfl⟩
  simp [deliver_entries, husers]

/-- The subscriber-less feed of the C9 witness. -/
def feed_c9 : Feed :=
  { url := "http://g", users := [], seen_entries := ["1"], last_fetch := 7,
    next_fetch := 9, etag := some "z" }

/-- Witness for C9 at a one-entry cycle on a feed with no subscribers. -/
theorem zero_subscribers_trigger_reset_witness :
    feed_c9.users = [] ∧
    (deliver_entries send_all_fail [⟨"2"⟩] feed_c9 [⟨"2"⟩] =
        feed_c9.reset_entries [⟨"2"⟩] ∧
      (feed_c9.reset_entries [⟨"2"⟩]).last_fetch = 0 ∧
      (feed_c9.reset_entries [⟨"2"⟩]).etag = none ∧
      (feed_c9.reset_entries [⟨"2"⟩]).seen_entries =
        feed_c9.seen_entries.filter
          (fun x => ! (([⟨"2"⟩] : List Entry).map Entry.id).contains x)) :=
  ⟨rfl, zero_subscribers_trigger_reset send_all_fail feed_c9 [⟨"2"⟩] ⟨"2"⟩ [] rfl⟩

/-- The messaging stand-in of the spec's C1 scenario: delivery to subscriber
A (bytes [0]) succeeds and subscriber B (bytes [1]) is permanently
unreachable. -/
def send_a_ok_b_blocked : Subscriber → Entry → SendOutcome := fun u _ =>
  if u = [0] then .delivered else .userIsBlocked

/-- The feed of the C1 scenario: subscribers A and B, entry 1 already seen. -/
def feed_c1 : Feed :=
  { url := "http://x", users := [[0], [1]], seen_entries := ["1"],
    last_fetch := 0, next_fetch := 0, etag := some "t" }

/-- The store row of the C1 scenario, as `add_feed` would have left it. -/
def db_c1 : Db :=
  { feeds := [⟨1, "http://x", 0, 0, some "t"⟩]
    entries := [⟨1, "1"⟩]
    subs := [⟨1, [0]⟩, ⟨1, [1]⟩] }

/-- C1 fails on the code: in the spec's own scenario (entry 4 delivered to A,
B permanently unreachable, so at least one success), the feed that reaches
the batch-persist step still does not hold 4 in `seen_entries` — nothing in
the delivery loop ever inserts a delivered identifier — so the persisted
entry rows stay exactly the old ones, and a later fetch of an unchanged
document returns entry 4 as new again. -/
theorem delivered_entry_never_marked_seen :
    (deliver_entries send_a_ok_b_blocked [⟨"4"⟩] feed_c1
        [⟨"4"⟩]).seen_entries.contains "4" = false ∧
    (update_feeds_and_entries db_c1
        [deliver_entries send_a_ok_b_blocked [⟨"4"⟩] feed_c1 [⟨"4"⟩]]).entries =
      [⟨1, "1"⟩] ∧
    Feed.check (fun _ => none) 900
        (deliver_entries send_a_ok_b_blocked [⟨"4"⟩] feed_c1 [⟨"4"⟩])
        { status := 200, headers := ⟨none, none⟩, body := some [⟨"4"⟩] } =
      .ok ({ feed_c1 with last_fetch := 900, next_fetch := 1500 }, [⟨"4"⟩]) :=
  ⟨by decide, by decide, by decide⟩

/-! ## Dispatch loop persistence theorems -/

/-- C8: started with a clear `last_save_failed` flag, the dispatch loop's
persistence bookkeeping panics exactly when the sequence of batch-persist
outcomes contains two consecutive failures: one isolated failure is
tolerated and any success in between resets the failure state. -/
theorem persist_run_fatal_iff_double_failure (outcomes : List Bool) :
    persist_run false outcomes = none ↔ has_double_failure outcomes = true := by
  have key : ∀ (l : List Bool) (b : Bool),
      (persist_run b l = none ↔
        (has_double_failure l = true ∨ (b = true ∧ l.head? = some false))) := by
    intro l
    induction l with
    | nil => intro b; simp [persist_run, has_double_failure]
    | cons ok rest ih =>
      intro b
      cases ok
      · cases b
        · have step : persist_run false (false :: rest) = persist_run true rest := rfl
          rw [step, ih true]
          cases rest with
          | nil => simp [has_double_failure]
          | cons r t =>
            cases r <;> simp [has_double_failure]
        · simp [persist_run, persist_step, has_double_failure]
      · have step : persist_run b (true :: rest) = persist_run false rest := by
          cases b <;> rfl
        rw [step, ih false]
        simp [has_double_failure]
  simpa using key outcomes false

/-! ## Persistent store theorems -/

/-- The store of the C6 counterexample: one feed row, due long ago, with no
subscriber row at all. -/
def db_c6 : Db := { feeds := [⟨1, "http://x", 0, 0, none⟩], entries := [], subs := [] }

/-- C6 counterexample: a feed whose subscriber set is empty and whose
next-check time has passed is still returned by the due-feeds query — the
selection filters on `next_check` alone — it merely carries an empty
subscriber list. -/
theorem due_feed_without_subscribers_still_loaded :
    db_c6.subs = [] ∧
    (load_pending_feeds db_c6 10).map Feed.url = ["http://x"] ∧
    (load_pending_feeds db_c6 10).map Feed.users = [[]] :=
  ⟨rfl, by decide, by decide⟩

/-- Rows kept by the id-deduplication are rows of the input. -/
theorem mem_of_mem_dedup_by_id {rows : List FeedRow} {x : FeedRow}
    (h : x ∈ dedup_by_id rows) : x ∈ rows := by
  have key : ∀ (rows acc : List FeedRow) (x : FeedRow),
      x ∈ rows.foldl insert_row acc → x ∈ acc ∨ x ∈ rows := by
    intro rows
    induction rows with
    | nil => exact fun acc x h => .inl h
    | cons r t ih =>
      intro acc x h
      rcases ih (insert_row acc r) x h with h' | h'
      · unfold insert_row at h'
        split at h'
        · exact .inl h'
        · rcases List.mem_append.mp h' with h2 | h2
          · exact .inl h2
          · exact .inr (List.mem_cons.mpr (.inl (List.mem_singleton.mp h2)))
      · exact .inr (List.mem_cons_of_mem _ h')
  rcases key rows [] x h with h' | h'
  · cases h'
  · exact h'

/-- C6 amended: `load_pending_feeds` itself does not filter on subscribers
(a due feed with none is returned with an empty user list, see the
counterexample); it is `cleanup_feeds` — run at startup — that deletes
subscriber-less feeds, and every feed the due-feeds query returns on a store
`cleanup_feeds` has just produced carries at least one subscriber. -/
theorem pending_after_cleanup_has_subscribers (db : Db) (now : Int) (f : Feed)
    (h : f ∈ load_pending_feeds (cleanup_feeds db) now) :
    f.users.isEmpty = false := by
  rcases List.mem_map.mp h with ⟨r, hr, hf⟩
  have hr1 : r ∈ (cleanup_feeds db).feeds :=
    (List.mem_filter.mp (mem_of_mem_dedup_by_id hr)).1
  simp only [cleanup_feeds] at hr1
  have hr2 : (db.subs.any fun s => s.feed_id == r.id) = true :=
    (List.mem_filter.mp hr1).2
  rcases List.any_eq_true.mp hr2 with ⟨s, hs, hsid⟩
  have hsk : s ∈ (cleanup_feeds db).subs := by
    simp only [cleanup_feeds, List.mem_filter]
    refine ⟨hs, ?_⟩
    rw [Bool.not_eq_true']
    rw [List.any_eq_false]
    intro fr hfr hid
    have hdead := (List.mem_filter.mp hfr).2
    rw [Bool.not_eq_true'] at hdead
    rw [List.any_eq_false] at hdead
    apply hdead s hs
    rw [beq_iff_eq] at hid ⊢
    exact hid.symm
  have husers : f.users =
      ((cleanup_feeds db).subs.filter (fun x => x.feed_id == r.id)).map
        SubRow.user := by
    rw [← hf]
  have hmem : s.user ∈ f.users := by
    rw [husers]
    exact List.mem_map_of_mem _ (List.mem_filter.mpr ⟨hsk, hsid⟩)
  cases hu : f.users with
  | nil => rw [hu] at hmem; cases hmem
  | cons a t => rfl

/-- Every member of an integer list is at most the list's right fold by max
over 0. -/
theorem le_foldr_max (l : List Int) (x : Int) (h : x ∈ l) : x ≤ l.foldr max 0 := by
  induction l with
  | nil => cases h
  | cons a t ih =>
    rcases List.mem_cons.mp h with rfl | h'
    · exact le_max_left _ _
    · exact le_trans (ih h') (le_max_right _ _)

/-- C10: calling `add_feed` for a url that already has a feed row r replaces
the row instead of failing — afterwards exactly one row carries that url —
and the replacement cascades over r's children: r's subscriber rows and
entry rows are gone (for any subscriber p and identifier eid not re-added by
the new feed), so a prior subscriber p silently loses the subscription: the
url is no longer among p's feeds.  The foreign-key hypothesis states the
store's referential integrity: every subscriber row points at some feed
row. -/
theorem add_feed_replaces_existing_url (db : Db) (feed : Feed) (r : FeedRow)
    (p : Subscriber) (eid : String)
    (hr : r ∈ db.feeds) (hurl : r.url = feed.url)
    (hfk : ∀ s ∈ db.subs, ∃ fr ∈ db.feeds, fr.id = s.feed_id)
    (hp : p ∉ feed.users) (heid : eid ∉ feed.seen_entries) :
    ((add_feed db feed).feeds.filter (fun x => x.url == feed.url)).length = 1 ∧
    (⟨r.id, p⟩ : SubRow) ∉ (add_feed db feed).subs ∧
    (⟨r.id, eid⟩ : EntryRow) ∉ (add_feed db feed).entries ∧
    feed.url ∉ get_user_feeds (add_feed db feed) p := by
  have hrconf : r ∈ db.feeds.filter (fun rr => rr.url == feed.url) :=
    List.mem_filter.mpr ⟨hr, by simp [hurl]⟩
  refine ⟨?_, ?_, ?_, ?_⟩
  · simp only [add_feed, List.filter_append]
    have hkept : (db.feeds.filter fun rr => ! (rr.url == feed.url)).filter
        (fun x => x.url == feed.url) = [] := by
      rw [List.filter_eq_nil_iff]
      intro a ha
      have h2 := (List.mem_filter.mp ha).2
      rw [Bool.not_eq_true'] at h2
      simp [h2]
    rw [hkept]
    simp
  · intro hmem
    simp only [add_feed] at hmem
    rcases List.mem_append.mp hmem with hk | hn
    · have hcond := (List.mem_filter.mp hk).2
      rw [Bool.not_eq_true'] at hcond
      rw [List.any_eq_false] at hcond
      exact hcond r hrconf (by simp)
    · rcases List.mem_map.mp hn with ⟨u, hu, huq⟩
      have hup : u = p := congrArg SubRow.user huq
      exact hp (hup ▸ hu)
  · intro hmem
    simp only [add_feed] at hmem
    rcases List.mem_append.mp hmem with hk | hn
    · have hcond := (List.mem_filter.mp hk).2
      rw [Bool.not_eq_true'] at hcond
      rw [List.any_eq_false] at hcond
      exact hcond r hrconf (by simp)
    · rcases List.mem_map.mp hn with ⟨x, hx, hxq⟩
      have hxe : x = eid := congrArg EntryRow.entry_id hxq
      exact heid (hxe ▸ hx)
  · intro hmem
    simp only [get_user_feeds] at hmem
    rcases List.mem_flatMap.mp hmem with ⟨fr2, hfr2, hurl2⟩
    rcases List.mem_map.mp hurl2 with ⟨s, hs2, hsu⟩
    have hscond := (List.mem_filter.mp hs2).2
    rw [Bool.and_eq_true] at hscond
    obtain ⟨hsid2, hsusr⟩ := hscond
    have hsmem : s ∈ (add_feed db feed).subs := (List.mem_filter.mp hs2).1
    have hsuser : s.user = p := by rw [← beq_iff_eq]; exact hsusr
    simp only [add_feed] at hfr2
    rcases List.mem_append.mp hfr2 with hk | hn
    · -- a kept row cannot carry the new feed's url
      have h2 := (List.mem_filter.mp hk).2
      rw [Bool.not_eq_true'] at h2
      rw [hsu] at h2
      simp at h2
    · -- fr2 is the fresh row, so s points at the fresh id
      have hfr2eq := List.mem_singleton.mp hn
      have hsid3 : s.feed_id = fr2.id := by rw [← beq_iff_eq]; exact hsid2
      simp only [add_feed] at hsmem
      rcases List.mem_append.mp hsmem with hsk | hsn
      · -- a kept subscriber row of the old store pointing at the fresh id
        have hcond := (List.mem_filter.mp hsk).2
        rw [Bool.not_eq_true'] at hcond
        rw [List.any_eq_false] at hcond
        have hsdb : s ∈ db.subs := (List.mem_filter.mp hsk).1
        rcases hfk s hsdb with ⟨fr3, hfr3, hfr3id⟩
        by_cases hcase : (fr3.url == feed.url) = true
        · -- fr3 conflicts, so the kept filter would have dropped s
          exact hcond fr3 (List.mem_filter.mpr ⟨hfr3, hcase⟩)
            (by rw [beq_iff_eq]; exact hfr3id)
        · -- fr3 was kept, so its id is at most the fold maximum, below the fresh id
          rw [Bool.not_eq_true] at hcase
          have hfr3kept : fr3 ∈ db.feeds.filter (fun rr => ! (rr.url == feed.url)) :=
            List.mem_filter.mpr ⟨hfr3, by rw [hcase]; rfl⟩
          have hle := le_foldr_max
            ((db.feeds.filter (fun rr => ! (rr.url == feed.url))).map FeedRow.id)
            fr3.id (List.mem_map_of_mem _ hfr3kept)
          rw [hfr3id, hsid3, hfr2eq] at hle
          simp only at hle
          omega
      · -- a fresh subscriber row carries a user of the new feed, not p
        rcases List.mem_map.mp hsn with ⟨u, hu, huq⟩
        have hup : u = s.user := congrArg SubRow.user huq
        exact hp ((hup.trans hsuser) ▸ hu)

/-- The store of the C10 witness: one feed for the url, with one subscriber
and one stored entry. -/
def db_c10 : Db :=
  { feeds := [⟨1, "http://u", 0, 0, none⟩]
    entries := [⟨1, "e1"⟩]
    subs := [⟨1, [9]⟩] }

/-- The in-memory feed the C10 witness re-adds under the same url, with a
different subscriber and a different seen entry. -/
def feed_c10 : Feed :=
  { url := "http://u", users := [[5]], seen_entries := ["e2"], last_fetch := 3,
    next_fetch := 4, etag := some "w" }

/-- Witness for C10: re-adding the url drops the old subscriber row and the
old entry row, and the prior subscriber's feed list loses the url. -/
theorem add_feed_replaces_existing_url_witness :
    ((⟨1, "http://u", 0, 0, none⟩ : FeedRow) ∈ db_c10.feeds) ∧
    (((add_feed db_c10 feed_c10).feeds.filter
        (fun x => x.url == feed_c10.url)).length = 1 ∧
      (⟨1, [9]⟩ : SubRow) ∉ (add_feed db_c10 feed_c10).subs ∧
      (⟨1, "e1"⟩ : EntryRow) ∉ (add_feed db_c10 feed_c10).entries ∧
      feed_c10.url ∉ get_user_feeds (add_feed db_c10 feed_c10) [9]) :=
  ⟨by decide,
    add_feed_replaces_existing_url db_c10 feed_c10 ⟨1, "http://u", 0, 0, none⟩
      [9] "e1" (by decide) rfl (by decide) (by decide) (by decide)⟩

/-- The store of the C6 witness: one feed, one subscriber for it. -/
def db_c6b : Db :=
  { feeds := [⟨1, "http://y", 0, 0, none⟩], entries := [], subs := [⟨1, [7]⟩] }

/-- The feed the C6 witness loads. -/
def feed_c6b : Feed :=
  { url := "http://y", users := [[7]], seen_entries := [], last_fetch := 0,
    next_fetch := 0, etag := none }

/-- Witness for the amended C6 on a one-feed store that survives cleanup. -/
theorem pending_after_cleanup_has_subscribers_witness :
    feed_c6b ∈ load_pending_feeds (cleanup_feeds db_c6b) 10 ∧
    feed_c6b.users.isEmpty = false :=
  ⟨by decide, pending_after_cleanup_has_subscribers db_c6b 10 feed_c6b (by decide)⟩

end RssBot

